import Mathlib

/-!
Verification of the PhotoShare FastAPI backend's repository-layer logic.

Python strings are modelled as lists of characters (`Str`); the SQLAlchemy
tables are modelled as lists of row structures; raised exceptions are
modelled with explicit error results.  Each definition is a direct
translation of the corresponding function in the repository sources.
-/

namespace PhotoShare

/-- Python strings, modelled as lists of characters. -/
abbrev Str := List Char

/-- A FastAPI `HTTPException`: status code and detail message. -/
structure HTTPError where
  status_code : Nat
  detail : String
deriving DecidableEq, Repr

/-- Python-level errors that the modelled operations can raise. -/
inductive PyError
  | http (e : HTTPError)
  | indexError
deriving DecidableEq, Repr

/-- A row of the `photos` table (the columns the verified operations read
or write: primary key, owner, description, creation date, like counter and
the comma-delimited `who_liked` text column). -/
structure Photo where
  id : Nat
  user_id : Nat
  description : String
  created_at : Nat
  likes : Int
  who_liked : Str
deriving DecidableEq, Repr

/-! ### Like / dislike (src/repository/users.py)

`put_a_like` and `dislike` first fetch the photo row by id; the functions
below model their effect on that row.  Python's `in` on strings is substring
containment, modelled by `List.IsInfix`; `str.replace` is modelled by
`replaceAll` below. -/

/-- Recursion kernel for `replaceAll`.  The fuel argument only forces
structural recursion: every call site passes `fuel = s.length`, which is
enough fuel to scan the whole string (each step consumes at least one
character), so the `0, l => l` arm is never reached. -/
def pyReplaceAux (pat rep : Str) : Nat → Str → Str
  | _, [] => []
  | 0, l => l
  | fuel + 1, c :: rest =>
    if pat ≠ [] ∧ pat.isPrefixOf (c :: rest) then
      rep ++ pyReplaceAux pat rep fuel ((c :: rest).drop pat.length)
    else
      c :: pyReplaceAux pat rep fuel rest

/-- Python `s.replace(pat, rep)`: replace every non-overlapping occurrence
of `pat` in `s` by `rep`, scanning left to right (for a non-empty `pat`;
the modelled calls always pass a non-empty pattern). -/
def replaceAll (pat rep s : Str) : Str := pyReplaceAux pat rep s.length s

/-- `pyReplaceAux` ignores the string whenever it is empty. -/
theorem pyReplaceAux_nil (pat rep : Str) (fuel : Nat) :
    pyReplaceAux pat rep fuel [] = [] := by
  cases fuel <;> rfl

/-- The fuel of `pyReplaceAux` is irrelevant as long as it covers the
length of the scanned string. -/
theorem pyReplaceAux_fuel_eq (pat rep : Str) :
    ∀ (n : Nat) (s : Str), s.length ≤ n →
      ∀ (m : Nat), s.length ≤ m → pyReplaceAux pat rep n s = pyReplaceAux pat rep m s := by
  intro n
  induction n with
  | zero =>
    intro s hs m _
    have hnil : s = [] := List.eq_nil_of_length_eq_zero (Nat.le_zero.mp hs)
    subst hnil
    rw [pyReplaceAux_nil, pyReplaceAux_nil]
  | succ n ih =>
    intro s hs m hm
    match s, m with
    | [], m => rw [pyReplaceAux_nil, pyReplaceAux_nil]
    | c :: rest, 0 => simp at hm
    | c :: rest, m' + 1 =>
      show pyReplaceAux pat rep (n + 1) (c :: rest) = pyReplaceAux pat rep (m' + 1) (c :: rest)
      rw [pyReplaceAux, pyReplaceAux]
      by_cases hc : pat ≠ [] ∧ pat.isPrefixOf (c :: rest)
      · rw [if_pos hc, if_pos hc]
        have hpat : 0 < pat.length := List.length_pos.mpr hc.1
        have hlen : ((c :: rest).drop pat.length).length ≤ n := by
          simp only [List.length_drop, List.length_cons]
          simp only [List.length_cons] at hs
          omega
        have hlen' : ((c :: rest).drop pat.length).length ≤ m' := by
          simp only [List.length_drop, List.length_cons]
          simp only [List.length_cons] at hm
          omega
        rw [ih _ hlen _ hlen']
      · rw [if_neg hc, if_neg hc]
        have h1 : rest.length ≤ n := by
          simp only [List.length_cons] at hs; omega
        have h2 : rest.length ≤ m' := by
          simp only [List.length_cons] at hm; omega
        rw [ih _ h1 _ h2]

/-- `replaceAll` on the empty string. -/
theorem replaceAll_nil (pat rep : Str) : replaceAll pat rep [] = [] := rfl

/-- `replaceAll` when the pattern matches at the head of the string: emit
the replacement and continue after the matched pattern. -/
theorem replaceAll_append_left (pat rep t : Str) (h : pat ≠ []) :
    replaceAll pat rep (pat ++ t) = rep ++ replaceAll pat rep t := by
  match pat, h with
  | a :: pat', _ =>
    show pyReplaceAux (a :: pat') rep (a :: (pat' ++ t)).length (a :: (pat' ++ t))
      = rep ++ replaceAll (a :: pat') rep t
    have hlen : (a :: (pat' ++ t)).length = (pat' ++ t).length + 1 := rfl
    rw [hlen, pyReplaceAux]
    rw [if_pos ⟨by simp, by
      rw [List.isPrefixOf_iff_prefix, ← List.cons_append]
      exact List.prefix_append _ t⟩]
    have hdrop : ((a :: (pat' ++ t)).drop (a :: pat').length) = t := by
      rw [← List.cons_append, List.drop_left]
    rw [hdrop]
    have ht : t.length ≤ (pat' ++ t).length := by simp
    rw [pyReplaceAux_fuel_eq (a :: pat') rep _ t ht t.length (Nat.le_refl _)]
    rfl

/-- `replaceAll` when the pattern does not match at the head of the string:
keep the head character and continue. -/
theorem replaceAll_cons_neg (pat rep : Str) (c : Char) (rest : Str)
    (h : ¬ pat.isPrefixOf (c :: rest) = true) :
    replaceAll pat rep (c :: rest) = c :: replaceAll pat rep rest := by
  show pyReplaceAux pat rep (c :: rest).length (c :: rest) = c :: replaceAll pat rep rest
  have hlen : (c :: rest).length = rest.length + 1 := rfl
  rw [hlen, pyReplaceAux]
  rw [if_neg (fun hc => h hc.2)]
  rfl

/-- `put_a_like` (src/repository/users.py, lines 124-143), acting on the
photo row fetched by id: when the user's email is not a substring of
`who_liked`, increment `likes`, append the email and a comma, and answer
"OK"; otherwise answer "NOT OK" and leave the row alone. -/
def put_a_like (email : Str) (photo : Photo) : String × Photo :=
  if ¬ email <:+: photo.who_liked then
    ("OK", { photo with likes := photo.likes + 1,
                        who_liked := photo.who_liked ++ (email ++ [',']) })
  else
    ("NOT OK", photo)

/-- `dislike` (src/repository/users.py, lines 146-166), acting on the photo
row fetched by id: when the user's email is a substring of `who_liked`,
decrement `likes`, delete every occurrence of the email followed by a comma,
and answer "OK"; otherwise answer "NOT OK" and leave the row alone. -/
def dislike (email : Str) (photo : Photo) : String × Photo :=
  if email <:+: photo.who_liked then
    ("OK", { photo with likes := photo.likes - 1,
                        who_liked := replaceAll (email ++ [',']) [] photo.who_liked })
  else
    ("NOT OK", photo)

/-! ### Helper lemmas for the like round trip -/

/-- If appending `email ++ [',']` to `w` lets the pattern `email ++ [',']`
match at the very front of `c :: w' ++ ...`, then either the email occurs
inside `c :: w'` or the email contains a comma (first case: the occurrence
lies inside `c :: w'`; second case: the pattern is longer, so its final
comma lands inside the email). -/
theorem comma_mem_of_pattern_match {e w : Str} (hw : 0 < w.length)
    (hlen : w.length ≤ e.length)
    (hp : (e ++ [',']) <+: (w ++ (e ++ [',']))) : ',' ∈ e := by
  obtain ⟨t, ht⟩ := hp
  have h1 : ((e ++ [',']) ++ t)[e.length]? = some ',' := by
    rw [List.getElem?_append_left (by simp)]
    exact List.getElem?_concat_length e ','
  have h2 : (w ++ (e ++ [',']))[e.length]? = e[e.length - w.length]? := by
    rw [List.getElem?_append_right hlen]
    exact List.getElem?_append_left (by omega)
  rw [ht, h2] at h1
  exact List.getElem?_mem h1

/-- If the pattern `email ++ [',']` fits inside `w`, the email occurs in
`w`. -/
theorem infix_of_pattern_match {e w : Str} (hlen : e.length + 1 ≤ w.length)
    (hp : (e ++ [',']) <+: (w ++ (e ++ [',']))) : e <:+: w := by
  have h2 := List.prefix_iff_eq_take.mp hp
  rw [List.take_append_of_le_length (by simpa using hlen)] at h2
  have h3 : e ++ [','] <+: w := by
    rw [h2]
    exact List.take_prefix _ _
  exact ((List.prefix_append e [',']).trans h3).isInfix

/-- Head step of the cancellation argument: when the email neither occurs
in `c :: w'` nor contains a comma, the pattern `email ++ [',']` cannot
match at the front of `(c :: w') ++ (email ++ [','])`. -/
theorem pattern_no_match_head {e w' : Str} {c : Char}
    (h1 : ¬ e <:+: (c :: w')) (h2 : ',' ∉ e) :
    ¬ (e ++ [',']).isPrefixOf ((c :: w') ++ (e ++ [','])) = true := by
  intro hp
  rw [List.isPrefixOf_iff_prefix] at hp
  by_cases hlen : e.length + 1 ≤ (c :: w').length
  · exact h1 (infix_of_pattern_match hlen hp)
  · have hle : (c :: w').length ≤ e.length := by
      simp only [List.length_cons] at hlen ⊢
      omega
    exact h2 (comma_mem_of_pattern_match (by simp) hle hp)

/-- Removing every occurrence of `email ++ [',']` from `w ++ email ++ [',']`
recovers `w`, provided the email does not occur in `w` and contains no
comma. -/
theorem replaceAll_cancel {e : Str} (h2 : ',' ∉ e) :
    ∀ {w : Str}, ¬ e <:+: w →
      replaceAll (e ++ [',']) [] (w ++ (e ++ [','])) = w := by
  intro w
  induction w with
  | nil =>
    intro _
    have h := replaceAll_append_left (e ++ [',']) [] [] (by simp)
    rw [List.append_nil] at h
    simpa [replaceAll_nil] using h
  | cons c w' ih =>
    intro h1
    have hnm := pattern_no_match_head h1 h2
    rw [List.cons_append] at hnm
    rw [List.cons_append, replaceAll_cons_neg _ _ _ _ hnm]
    rw [ih (fun h => h1 (List.infix_cons h))]

/-! ### Claims C1 and C2 -/

/-- Claim C1: for every photo and user email, if the email is not a
substring of the photo's `who_liked` column, `put_a_like` appends the email
followed by a comma, increments `likes` by exactly one and answers "OK",
and otherwise answers "NOT OK" leaving the photo unchanged; symmetrically,
`dislike` strips the email with its trailing comma, decrements `likes` by
exactly one and answers "OK" when the email is a substring, and otherwise
answers "NOT OK" leaving the photo unchanged. -/
theorem put_a_like_dislike_spec (email : Str) (photo : Photo) :
    (¬ email <:+: photo.who_liked →
      (put_a_like email photo).1 = "OK" ∧
      (put_a_like email photo).2.likes = photo.likes + 1 ∧
      (put_a_like email photo).2.who_liked = photo.who_liked ++ (email ++ [','])) ∧
    (email <:+: photo.who_liked →
      put_a_like email photo = ("NOT OK", photo)) ∧
    (email <:+: photo.who_liked →
      (dislike email photo).1 = "OK" ∧
      (dislike email photo).2.likes = photo.likes - 1 ∧
      (dislike email photo).2.who_liked = replaceAll (email ++ [',']) [] photo.who_liked) ∧
    (¬ email <:+: photo.who_liked →
      dislike email photo = ("NOT OK", photo)) := by
  refine ⟨fun h => ?_, fun h => ?_, fun h => ?_, fun h => ?_⟩
  · rw [put_a_like, if_pos h]
    exact ⟨rfl, rfl, rfl⟩
  · rw [put_a_like, if_neg (fun hc => hc h)]
  · rw [dislike, if_pos h]
    exact ⟨rfl, rfl, rfl⟩
  · rw [dislike, if_neg h]

/-- Claim C1, witnessed at a concrete photo and email. -/
theorem put_a_like_dislike_spec_witness :
    (put_a_like ['a'] ⟨1, 2, "d", 3, 0, []⟩).1 = "OK" ∧
    (put_a_like ['a'] ⟨1, 2, "d", 3, 0, []⟩).2.likes = 0 + 1 ∧
    (put_a_like ['a'] ⟨1, 2, "d", 3, 0, []⟩).2.who_liked = [] ++ (['a'] ++ [',']) :=
  (put_a_like_dislike_spec ['a'] ⟨1, 2, "d", 3, 0, []⟩).1 (by decide)

/-- Claim C2, counterexample: for the photo whose `who_liked` column is
"a,b" and the user email "a,ba" (not a substring of "a,b"), `put_a_like`
followed by `dislike` answers "OK" twice but does not restore `who_liked`
(the final column is "ba," instead of "a,b"), so the round trip is not the
identity on the photo's like state. -/
theorem put_then_dislike_not_identity :
    (¬ (['a', ',', 'b', 'a'] <:+: ['a', ',', 'b'])) ∧
    ((put_a_like ['a', ',', 'b', 'a'] ⟨1, 1, "d", 0, 0, ['a', ',', 'b']⟩).1 = "OK" ∧
     (dislike ['a', ',', 'b', 'a']
       (put_a_like ['a', ',', 'b', 'a'] ⟨1, 1, "d", 0, 0, ['a', ',', 'b']⟩).2).1 = "OK" ∧
     (dislike ['a', ',', 'b', 'a']
       (put_a_like ['a', ',', 'b', 'a'] ⟨1, 1, "d", 0, 0, ['a', ',', 'b']⟩).2).2 ≠
       ⟨1, 1, "d", 0, 0, ['a', ',', 'b']⟩) := by decide

/-- Claim C2 (amended): for every photo state in which the user's email
neither occurs as a substring of `who_liked` nor contains a comma, calling
`put_a_like` and then `dislike` for that user answers "OK" both times and
restores `likes` and `who_liked` exactly. -/
theorem put_then_dislike_roundtrip (email : Str) (photo : Photo)
    (h1 : ¬ email <:+: photo.who_liked) (h2 : ',' ∉ email) :
    (put_a_like email photo).1 = "OK" ∧
    (dislike email (put_a_like email photo).2).1 = "OK" ∧
    (dislike email (put_a_like email photo).2).2 = photo := by
  rw [put_a_like, if_pos h1]
  have hinf : email <:+: photo.who_liked ++ (email ++ [',']) :=
    ⟨photo.who_liked, [','], by simp⟩
  refine ⟨rfl, ?_, ?_⟩
  · rw [dislike, if_pos hinf]
  · rw [dislike, if_pos hinf]
    show Photo.mk _ _ _ _ _ _ = photo
    rw [replaceAll_cancel h2 h1]
    have : photo.likes + 1 - 1 = photo.likes := by omega
    rw [this]

/-- Claim C2 (amended), witnessed at a concrete photo and email. -/
theorem put_then_dislike_roundtrip_witness :
    (put_a_like ['a'] ⟨1, 1, "d", 0, 4, ['x', ',']⟩).1 = "OK" ∧
    (dislike ['a'] (put_a_like ['a'] ⟨1, 1, "d", 0, 4, ['x', ',']⟩).2).1 = "OK" ∧
    (dislike ['a'] (put_a_like ['a'] ⟨1, 1, "d", 0, 4, ['x', ',']⟩).2).2 =
      ⟨1, 1, "d", 0, 4, ['x', ',']⟩ :=
  put_then_dislike_roundtrip ['a'] ⟨1, 1, "d", 0, 4, ['x', ',']⟩ (by decide) (by decide)

/-! ### Tags (src/repository/photos.py and src/repository/tags.py)

`create_user_photo` splits the first element of the request's tag list on
commas, strips whitespace, drops empty titles, rejects more than five
titles, and find-or-creates each tag, committing after every insert.
`update_user_photo` find-or-creates against the table as committed before
the call (the session is created with `autoflush=False` in
src/database/connect.py and the loop never commits, so pending inserts are
invisible to the lookups) and commits once at the end; `Tag.title` is
declared `unique=True` in src/database/models.py, so that final commit
raises `IntegrityError` and rolls back whenever the pending inserts would
duplicate a title.  `create_tag` inserts a single tag when its title is
new. -/

/-- A row of the `tags` table (title and creating user). -/
structure Tag where
  title : Str
  user_id : Nat
deriving DecidableEq, Repr

/-- The database state touched by photo creation: the photos and tags
tables. -/
structure DB where
  photos : List Photo
  tags : List Tag
deriving DecidableEq, Repr

/-- The request body `PhotoCreate`: a description and a list of tag
strings. -/
structure PhotoCreate where
  description : String
  tags : List Str
deriving DecidableEq, Repr

/-- Python `str.strip()`: remove leading and trailing whitespace. -/
def pyStrip (s : Str) : Str :=
  ((s.dropWhile Char.isWhitespace).reverse.dropWhile Char.isWhitespace).reverse

/-- Python `str.split(",")`: split on every comma (an empty string yields
one empty group). -/
def splitComma : Str → List Str
  | [] => [[]]
  | c :: rest =>
    if c = ',' then [] :: splitComma rest
    else
      match splitComma rest with
      | [] => [[c]]
      | group :: groups => (c :: group) :: groups

/-- The list comprehension of `create_user_photo`:
`[tag.strip() for tag in tags[0].split(",") if tag.strip()]`. -/
def tagTitles (s : Str) : List Str :=
  ((splitComma s).map pyStrip).filter (fun t => t ≠ [])

/-- One iteration of the tag loop of `create_user_photo`: the query sees
the table as committed so far, and a missing title is inserted and
committed immediately. -/
def findOrCreateTag (uid : Nat) (tags : List Tag) (title : Str) : List Tag :=
  if tags.any (fun t => t.title == title) then tags
  else tags ++ [⟨title, uid⟩]

/-- `create_user_photo` (src/repository/photos.py, lines 125-176), reduced
to its database effect: read `tags[0]` (an `IndexError` when the tag list
is empty), split it into titles, reject more than five titles with HTTP
400, then find-or-create every tag and insert the photo row.  The result
is the database state after the call together with the outcome. -/
def create_user_photo (photo : PhotoCreate) (current_user_id newPhotoId createdAt : Nat)
    (db : DB) : DB × Except PyError Photo :=
  match photo.tags with
  | [] => (db, .error .indexError)
  | t0 :: _ =>
    let titles := tagTitles t0
    if 5 < titles.length then
      (db, .error (.http ⟨400, "Too many tags provided"⟩))
    else
      let tags' := titles.foldl (findOrCreateTag current_user_id) db.tags
      let newPhoto : Photo := ⟨newPhotoId, current_user_id, photo.description, createdAt, 0, []⟩
      ({ photos := db.photos ++ [newPhoto], tags := tags' }, .ok newPhoto)

/-- A database-level error raised at commit time. -/
inductive DbError
  | integrityError
deriving DecidableEq, Repr

/-- The tag effect of `update_user_photo` (src/repository/photos.py, lines
243-280): nothing happens for an empty (falsy) tag list; otherwise every
lookup queries the table as committed before the call (`autoflush=False`,
no commit inside the loop), missing titles are added to the session, and
the final commit flushes all of them.  The `unique=True` constraint on
`Tag.title` makes that commit raise `IntegrityError` - aborting the
transaction so the table is left unchanged - whenever the pending inserts
repeat a title or collide with an existing one; otherwise all pending
rows are inserted.  The result is the tags table after the call together
with the raised error, if any.  `updatePending` is the session's pending
insert list built by the loop. -/
def updatePending (uid : Nat) (reqTags : List Str) (tags : List Tag) : List Tag :=
  reqTags.foldl
    (fun pending name =>
      if tags.any (fun t => t.title == name) then pending
      else pending ++ [⟨name, uid⟩]) []

/-- See `updatePending`: the tag effect of `update_user_photo`, including
the commit. -/
def update_user_photo_tags (uid : Nat) (reqTags : List Str) (tags : List Tag) :
    List Tag × Option DbError :=
  if reqTags = [] then (tags, none)
  else if ((updatePending uid reqTags tags).map Tag.title).Nodup ∧
      ∀ t ∈ updatePending uid reqTags tags, t.title ∉ tags.map Tag.title then
    (tags ++ updatePending uid reqTags tags, none)
  else
    (tags, some .integrityError)

/-- `create_tag` (src/repository/tags.py, lines 9-32): insert and return a
new tag when the title is absent, otherwise return `None` and leave the
table alone.  The result is the tags table after the call together with
the returned value. -/
def create_tag (title : Str) (uid : Nat) (tags : List Tag) : List Tag × Option Tag :=
  if ¬ tags.any (fun t => t.title == title) then
    (tags ++ [⟨title, uid⟩], some ⟨title, uid⟩)
  else
    (tags, none)

/-- Uniqueness of `Tag.title` over the tags table. -/
def uniqueTitles (tags : List Tag) : Prop := (tags.map Tag.title).Nodup

/-- The title lookup fails exactly when the title is absent from the
table. -/
theorem any_title_eq_false_iff (tags : List Tag) (name : Str) :
    (tags.any (fun t => t.title == name) = false) ↔ name ∉ tags.map Tag.title := by
  rw [← Bool.not_eq_true, List.any_eq_true]
  simp [List.mem_map]

/-- `findOrCreateTag` preserves title uniqueness. -/
theorem findOrCreateTag_unique (uid : Nat) {tags : List Tag} (h : uniqueTitles tags)
    (title : Str) : uniqueTitles (findOrCreateTag uid tags title) := by
  unfold findOrCreateTag
  by_cases hc : tags.any (fun t => t.title == title) = true
  · rw [if_pos hc]; exact h
  · rw [if_neg hc]
    unfold uniqueTitles at h ⊢
    rw [List.map_append]
    refine List.Nodup.append h (by simp) ?_
    rw [List.map_singleton, List.disjoint_singleton]
    exact (any_title_eq_false_iff tags title).mp (Bool.not_eq_true _ ▸ hc)

/-- Folding `findOrCreateTag` over any list of titles preserves title
uniqueness. -/
theorem foldl_findOrCreateTag_unique (uid : Nat) (titles : List Str) :
    ∀ {tags : List Tag}, uniqueTitles tags →
      uniqueTitles (titles.foldl (findOrCreateTag uid) tags) := by
  induction titles with
  | nil => intro tags h; exact h
  | cons t ts ih => intro tags h; exact ih (findOrCreateTag_unique uid h t)

/-! ### Claims C3, C7, C8 and C10 -/

/-- Unfolding of `create_user_photo` on a request with a non-empty tag
list. -/
theorem create_user_photo_cons (d : String) (uid pid ca : Nat) (t0 : Str)
    (rest : List Str) (db : DB) :
    create_user_photo ⟨d, t0 :: rest⟩ uid pid ca db =
      if 5 < (tagTitles t0).length then
        (db, .error (.http ⟨400, "Too many tags provided"⟩))
      else
        ({ photos := db.photos ++ [⟨pid, uid, d, ca, 0, []⟩],
           tags := (tagTitles t0).foldl (findOrCreateTag uid) db.tags },
         .ok ⟨pid, uid, d, ca, 0, []⟩) := rfl

/-- Claim C3: `create_user_photo` raises HTTP 400 "Too many tags provided"
whenever the comma-separated tag string supplied with the photo contains
more than five non-empty titles, creating no photo and no tag rows, and
does not raise this error for five or fewer titles. -/
theorem create_user_photo_tag_cap (d : String) (uid pid ca : Nat) (t0 : Str)
    (rest : List Str) (db : DB) :
    (5 < (tagTitles t0).length →
      create_user_photo ⟨d, t0 :: rest⟩ uid pid ca db =
        (db, .error (.http ⟨400, "Too many tags provided"⟩))) ∧
    ((tagTitles t0).length ≤ 5 →
      (create_user_photo ⟨d, t0 :: rest⟩ uid pid ca db).2 ≠
        .error (.http ⟨400, "Too many tags provided"⟩)) := by
  constructor
  · intro h
    rw [create_user_photo_cons, if_pos h]
  · intro h
    rw [create_user_photo_cons, if_neg (by omega)]
    intro hcontra
    exact Except.noConfusion hcontra

/-- Claim C3, witnessed on a tag string with six titles and on one with
two titles. -/
theorem create_user_photo_tag_cap_witness :
    create_user_photo ⟨"d", [['a', ',', 'b', ',', 'c', ',', 'd', ',', 'e', ',', 'f']]⟩
        7 1 0 ⟨[], []⟩ =
      (⟨[], []⟩, .error (.http ⟨400, "Too many tags provided"⟩)) ∧
    (create_user_photo ⟨"d", [['a', ',', 'b']]⟩ 7 1 0 ⟨[], []⟩).2 ≠
      .error (.http ⟨400, "Too many tags provided"⟩) :=
  ⟨(create_user_photo_tag_cap "d" 7 1 0 _ [] ⟨[], []⟩).1 (by decide),
   (create_user_photo_tag_cap "d" 7 1 0 _ [] ⟨[], []⟩).2 (by decide)⟩

/-- Claim C10: `create_user_photo` reads the first element of the
request's tag list without a guard: with an empty tag list it fails with
an `IndexError` and stores no photo row, and with a non-empty tag list the
`IndexError` cannot occur. -/
theorem create_user_photo_empty_tags (d : String) (uid pid ca : Nat) (db : DB) :
    create_user_photo ⟨d, []⟩ uid pid ca db = (db, .error .indexError) ∧
    ∀ (t0 : Str) (rest : List Str),
      (create_user_photo ⟨d, t0 :: rest⟩ uid pid ca db).2 ≠ .error .indexError := by
  constructor
  · rfl
  · intro t0 rest
    rw [create_user_photo_cons]
    by_cases h : 5 < (tagTitles t0).length
    · rw [if_pos h]
      intro hcontra
      rw [Except.error.injEq] at hcontra
      exact PyError.noConfusion hcontra
    · rw [if_neg h]
      intro hcontra
      exact Except.noConfusion hcontra

/-- Claim C10, witnessed at concrete inputs. -/
theorem create_user_photo_empty_tags_witness :
    create_user_photo ⟨"d", []⟩ 7 1 0 ⟨[], []⟩ = (⟨[], []⟩, .error .indexError) ∧
    (create_user_photo ⟨"d", [['a']]⟩ 7 1 0 ⟨[], []⟩).2 ≠ .error .indexError :=
  ⟨(create_user_photo_empty_tags "d" 7 1 0 ⟨[], []⟩).1,
   (create_user_photo_empty_tags "d" 7 1 0 ⟨[], []⟩).2 ['a'] []⟩

/-- Claim C7: every operation that attaches tags looks an existing tag up
by title and creates a new row only when none exists, and uniqueness of
`Tag.title` is preserved by every operation: by `create_user_photo` and
`create_tag` because their lookups run against the committed table, and by
`update_user_photo` because its single commit either inserts only fresh,
pairwise distinct titles or raises `IntegrityError` (the `unique=True`
constraint) and rolls back, leaving the table unchanged. -/
theorem tag_title_unique_preserved (d : String) (uid pid ca : Nat) (t0 : Str)
    (rest : List Str) (title : Str) (reqTags : List Str) (db : DB) (tags : List Tag) :
    (uniqueTitles db.tags →
      uniqueTitles (create_user_photo ⟨d, t0 :: rest⟩ uid pid ca db).1.tags) ∧
    (uniqueTitles tags → uniqueTitles (create_tag title uid tags).1) ∧
    (uniqueTitles tags →
      uniqueTitles (update_user_photo_tags uid reqTags tags).1) := by
  refine ⟨fun h => ?_, fun h => ?_, fun h => ?_⟩
  · rw [create_user_photo_cons]
    by_cases hc : 5 < (tagTitles t0).length
    · rw [if_pos hc]; exact h
    · rw [if_neg hc]
      exact foldl_findOrCreateTag_unique uid (tagTitles t0) h
  · unfold create_tag
    by_cases hc : tags.any (fun t => t.title == title) = true
    · rw [if_neg (fun hn => hn hc)]; exact h
    · rw [if_pos (Bool.not_eq_true _ ▸ hc)]
      unfold uniqueTitles at h ⊢
      rw [List.map_append]
      refine List.Nodup.append h (by simp) ?_
      rw [List.map_singleton, List.disjoint_singleton]
      exact (any_title_eq_false_iff tags title).mp (Bool.not_eq_true _ ▸ hc)
  · unfold update_user_photo_tags
    by_cases hreq : reqTags = []
    · rw [if_pos hreq]; exact h
    · rw [if_neg hreq]
      by_cases hok : ((updatePending uid reqTags tags).map Tag.title).Nodup ∧
          ∀ t ∈ updatePending uid reqTags tags, t.title ∉ tags.map Tag.title
      · rw [if_pos hok]
        unfold uniqueTitles at h ⊢
        rw [List.map_append]
        refine List.Nodup.append h hok.1 ?_
        intro x hx hx'
        obtain ⟨t, ht, rfl⟩ := List.mem_map.mp hx'
        exact hok.2 t ht hx
      · rw [if_neg hok]
        exact h

/-- Claim C7, witnessed: a successful update with a fresh title and a
rolled-back update that repeats a new title both keep the table's titles
unique. -/
theorem tag_title_unique_preserved_witness :
    uniqueTitles (update_user_photo_tags 1 [['b']] [⟨['a'], 1⟩]).1 ∧
    uniqueTitles (update_user_photo_tags 1 [['t'], ['t']] [⟨['a'], 1⟩]).1 :=
  ⟨(tag_title_unique_preserved "d" 1 1 0 ['a'] [] ['a'] [['b']]
      ⟨[], []⟩ [⟨['a'], 1⟩]).2.2 (by simp [uniqueTitles]),
   (tag_title_unique_preserved "d" 1 1 0 ['a'] [] ['a'] [['t'], ['t']]
      ⟨[], []⟩ [⟨['a'], 1⟩]).2.2 (by simp [uniqueTitles])⟩

/-- Claim C8: `create_tag` returns `None` and leaves the tags table
unchanged when a tag with the requested title exists, and otherwise
inserts and returns a new tag carrying that title and the calling user's
id. -/
theorem create_tag_spec (title : Str) (uid : Nat) (tags : List Tag) :
    ((∃ t ∈ tags, t.title = title) → create_tag title uid tags = (tags, none)) ∧
    ((∀ t ∈ tags, t.title ≠ title) →
      create_tag title uid tags = (tags ++ [⟨title, uid⟩], some ⟨title, uid⟩)) := by
  constructor
  · intro h
    unfold create_tag
    rw [if_neg]
    intro hn
    apply hn
    rw [List.any_eq_true]
    obtain ⟨t, ht, he⟩ := h
    exact ⟨t, ht, by simpa using he⟩
  · intro h
    unfold create_tag
    rw [if_pos]
    intro hc
    rw [List.any_eq_true] at hc
    obtain ⟨t, ht, he⟩ := hc
    exact h t ht (by simpa using he)

/-- Claim C8, witnessed at a concrete table. -/
theorem create_tag_spec_witness :
    create_tag ['a'] 2 [⟨['a'], 1⟩] = ([⟨['a'], 1⟩], none) ∧
    create_tag ['b'] 2 [⟨['a'], 1⟩] = ([⟨['a'], 1⟩, ⟨['b'], 2⟩], some ⟨['b'], 2⟩) :=
  ⟨(create_tag_spec ['a'] 2 [⟨['a'], 1⟩]).1 (by decide),
   (create_tag_spec ['b'] 2 [⟨['a'], 1⟩]).2 (by decide)⟩

/-! ### User creation (src/repository/users.py, lines 21-43) -/

/-- A row of the `users` table (the columns role assignment touches). -/
structure UserRow where
  id : Nat
  username : String
  email : String
  roles : String
deriving DecidableEq, Repr

/-- The request body `UserModel`: username, email and password (the schema
carries no role field). -/
structure UserModel where
  username : String
  email : String
  password : String
deriving DecidableEq, Repr

/-- `create_user`: build the new user from the request body, then set its
role to "Administrator" exactly when `db.query(User).count()` is zero and
to "User" otherwise, and insert it.  The result is the users table after
the call together with the created row. -/
def create_user (body : UserModel) (nextId : Nat) (users : List UserRow) :
    List UserRow × UserRow :=
  let role := if users.length = 0 then "Administrator" else "User"
  let new_user : UserRow := ⟨nextId, body.username, body.email, role⟩
  (users ++ [new_user], new_user)

/-- Claim C9: `create_user` assigns the role "Administrator" exactly when
the users table is empty at the moment of creation and "User" otherwise,
for every request body (the body carries no role that could override
this). -/
theorem create_user_role (body : UserModel) (nextId : Nat) (users : List UserRow) :
    ((create_user body nextId users).2.roles = "Administrator" ↔ users = []) ∧
    (users ≠ [] → (create_user body nextId users).2.roles = "User") := by
  unfold create_user
  cases users <;> simp

/-- Claim C9, witnessed on an empty and on a one-row users table. -/
theorem create_user_role_witness :
    (create_user ⟨"alice", "a@b.c", "secret"⟩ 1 []).2.roles = "Administrator" ∧
    (create_user ⟨"bob", "b@b.c", "secret"⟩ 2
      [⟨1, "alice", "a@b.c", "Administrator"⟩]).2.roles = "User" :=
  ⟨(create_user_role ⟨"alice", "a@b.c", "secret"⟩ 1 []).1.mpr rfl,
   (create_user_role ⟨"bob", "b@b.c", "secret"⟩ 2
      [⟨1, "alice", "a@b.c", "Administrator"⟩]).2 (by simp)⟩

/-! ### Photo deletion (src/repository/photos.py, lines 322-355) -/

/-- `delete_user_photo`: fetch the photo by id (`None` when absent), raise
HTTP 403 for a requester who is neither an administrator nor the owner,
and otherwise delete the row and return it.  The result carries the
returned value and the photos table after the call. -/
def delete_user_photo (photo_id user_id : Nat) (is_admin : Bool) (db : List Photo) :
    Except HTTPError (Option Photo × List Photo) :=
  match db.find? (fun p => p.id == photo_id) with
  | none => .ok (none, db)
  | some photo =>
    if ¬ is_admin ∧ user_id ≠ photo.user_id then
      .error ⟨403, "Permission denied"⟩
    else
      .ok (some photo, db.eraseP (fun p => p.id == photo_id))

/-- A successful `find?` splits the list at the first match, and `eraseP`
removes exactly that element. -/
theorem find?_eraseP_decomp {p : Photo → Bool} :
    ∀ {l : List Photo} {a : Photo}, l.find? p = some a →
      ∃ l₁ l₂, l = l₁ ++ a :: l₂ ∧ (∀ b ∈ l₁, ¬ p b) ∧ l.eraseP p = l₁ ++ l₂ := by
  intro l
  induction l with
  | nil => intro a h; simp at h
  | cons x xs ih =>
    intro a h
    by_cases hx : p x = true
    · rw [List.find?_cons_of_pos _ hx] at h
      obtain rfl : x = a := by injection h
      exact ⟨[], xs, rfl, by simp, by simp [List.eraseP_cons_of_pos hx]⟩
    · rw [List.find?_cons_of_neg _ hx] at h
      obtain ⟨l₁, l₂, h1, h2, h3⟩ := ih h
      refine ⟨x :: l₁, l₂, by rw [h1, List.cons_append], ?_, ?_⟩
      · intro b hb
        rcases List.mem_cons.mp hb with rfl | hb'
        · exact hx
        · exact h2 b hb'
      · rw [List.eraseP_cons_of_neg hx, h3, List.cons_append]

/-- Unfolding of `delete_user_photo` when the photo is found. -/
theorem delete_user_photo_found {photo_id user_id : Nat} {is_admin : Bool}
    {db : List Photo} {photo : Photo}
    (hfind : db.find? (fun p => p.id == photo_id) = some photo) :
    delete_user_photo photo_id user_id is_admin db =
      if ¬ is_admin ∧ user_id ≠ photo.user_id then
        .error ⟨403, "Permission denied"⟩
      else
        .ok (some photo, db.eraseP (fun p => p.id == photo_id)) := by
  unfold delete_user_photo
  rw [hfind]

/-- Claim C6: `delete_user_photo` returns `None` when no photo with the
given id exists; raises HTTP 403 "Permission denied" leaving the photos
table unchanged when the requester is neither an administrator nor the
owner; and otherwise removes the photo from the table and returns it. -/
theorem delete_user_photo_spec (photo_id user_id : Nat) (is_admin : Bool)
    (db : List Photo) :
    ((∀ p ∈ db, p.id ≠ photo_id) →
      delete_user_photo photo_id user_id is_admin db = .ok (none, db)) ∧
    (∀ photo, db.find? (fun p => p.id == photo_id) = some photo →
      (¬ is_admin ∧ user_id ≠ photo.user_id →
        delete_user_photo photo_id user_id is_admin db = .error ⟨403, "Permission denied"⟩) ∧
      ((is_admin ∨ user_id = photo.user_id) →
        ∃ l₁ l₂, db = l₁ ++ photo :: l₂ ∧ (∀ q ∈ l₁, q.id ≠ photo_id) ∧
          delete_user_photo photo_id user_id is_admin db = .ok (some photo, l₁ ++ l₂))) := by
  constructor
  · intro h
    have hnone : db.find? (fun p => p.id == photo_id) = none := by
      rw [List.find?_eq_none]
      intro x hx
      simpa using h x hx
    unfold delete_user_photo
    rw [hnone]
  · intro photo hfind
    constructor
    · intro hdenied
      rw [delete_user_photo_found hfind, if_pos hdenied]
    · intro hallowed
      obtain ⟨l₁, l₂, h1, h2, h3⟩ := find?_eraseP_decomp hfind
      refine ⟨l₁, l₂, h1, ?_, ?_⟩
      · intro q hq
        simpa using h2 q hq
      · rw [delete_user_photo_found hfind,
          if_neg (fun hc => hallowed.elim hc.1 fun he => hc.2 he), h3]

/-- Claim C6, witnessed on a one-photo table deleted by its owner. -/
theorem delete_user_photo_spec_witness :
    ∃ l₁ l₂, [(⟨5, 9, "d", 0, 0, []⟩ : Photo)] = l₁ ++ (⟨5, 9, "d", 0, 0, []⟩ : Photo) :: l₂ ∧
      (∀ q ∈ l₁, q.id ≠ 5) ∧
      delete_user_photo 5 9 false [⟨5, 9, "d", 0, 0, []⟩] =
        .ok (some ⟨5, 9, "d", 0, 0, []⟩, l₁ ++ l₂) :=
  ((delete_user_photo_spec 5 9 false [⟨5, 9, "d", 0, 0, []⟩]).2
    ⟨5, 9, "d", 0, 0, []⟩ (by decide)).2 (Or.inr rfl)

/-! ### Photo search (src/repository/photos.py, lines 283-319) -/

/-- A row of the `tags` table as seen by the search join (primary key and
title). -/
structure TagRec where
  id : Nat
  title : String
deriving DecidableEq, Repr

/-- A row of the `photo_2_tag` association table. -/
structure PhotoTagLink where
  photo_id : Nat
  tag_id : Nat
deriving DecidableEq, Repr

/-- A row of the `users` table as seen by the search join (primary key and
username). -/
structure UserRec where
  id : Nat
  username : String
deriving DecidableEq, Repr

/-- The tables `search_photos` queries. -/
structure SearchDB where
  photos : List Photo
  tag_rows : List TagRec
  links : List PhotoTagLink
  users : List UserRec
deriving DecidableEq, Repr

/-- Python truthiness of an optional string parameter: `None` and the
empty string are falsy. -/
def truthy : Option String → Bool
  | none => false
  | some s => s ≠ ""

/-- The join `Photo - photo_2_tag - Tag` filtered on the tag title: the
photo is linked to some tag row carrying the given title. -/
def photoHasTag (db : SearchDB) (title : String) (p : Photo) : Bool :=
  db.links.any fun ln =>
    ln.photo_id == p.id && db.tag_rows.any fun t => t.id == ln.tag_id && t.title == title

/-- The join `Photo - User` filtered on the username. -/
def photoOwnedBy (db : SearchDB) (uname : String) (p : Photo) : Bool :=
  db.users.any fun u => u.id == p.user_id && u.username == uname

/-- `ORDER BY Photo.created_at DESC`: a descending-sorted arrangement of
the result rows. -/
def orderDesc (l : List Photo) : List Photo :=
  l.insertionSort (fun a b => b.created_at ≤ a.created_at)

instance photoDescDecidable :
    DecidableRel (fun (a b : Photo) => b.created_at ≤ a.created_at) :=
  fun _ _ => Nat.decLe _ _

instance photoDescTotal : IsTotal Photo (fun a b => b.created_at ≤ a.created_at) :=
  ⟨fun a b => Nat.le_total b.created_at a.created_at⟩

instance photoDescTrans : IsTrans Photo (fun a b => b.created_at ≤ a.created_at) :=
  ⟨fun _ _ _ hab hbc => Nat.le_trans hbc hab⟩

/-- Sorting does not change membership. -/
theorem orderDesc_mem (l : List Photo) (p : Photo) : p ∈ orderDesc l ↔ p ∈ l :=
  (List.perm_insertionSort _ l).mem_iff

/-- The sorted arrangement is descending on creation dates. -/
theorem orderDesc_sorted (l : List Photo) :
    (orderDesc l).Sorted (fun a b => b.created_at ≤ a.created_at) :=
  List.sorted_insertionSort _ l

/-- `search_photos` (src/repository/photos.py, lines 283-319): the filter
is selected by Python truthiness of the three optional arguments, in the
source's branch order, every result ordered by creation date descending;
the username branch is reserved to administrators. -/
def search_photos (description tag user : Option String) (is_admin : Bool)
    (db : SearchDB) : Except HTTPError (List Photo) :=
  if truthy description ∧ truthy tag then
    .ok (orderDesc (db.photos.filter fun p =>
      p.description == description.getD "" && photoHasTag db (tag.getD "") p))
  else if truthy description ∧ ¬ truthy tag then
    .ok (orderDesc (db.photos.filter fun p => p.description == description.getD ""))
  else if truthy tag ∧ ¬ truthy description then
    .ok (orderDesc (db.photos.filter (photoHasTag db (tag.getD ""))))
  else if truthy user ∧ ¬ truthy description ∧ ¬ truthy tag then
    if ¬ is_admin then .error ⟨403, "Permission denied"⟩
    else .ok (orderDesc (db.photos.filter (photoOwnedBy db (user.getD ""))))
  else
    .ok (orderDesc db.photos)

/-- Claim C4: the filters `search_photos` applies are determined solely by
which of description, tag and username are supplied: description and tag
together filter by both (username ignored); description alone filters by
exact description; tag alone joins the tag tables and filters by exact tag
title; username alone filters by the owner's username but raises HTTP 403
"Permission denied" for non-administrators; with none supplied every photo
is returned; and every successful branch is ordered by creation date
descending. -/
theorem search_photos_spec (d t u : Option String) (is_admin : Bool) (db : SearchDB) :
    (truthy d → truthy t →
      (∀ u' a', search_photos d t u' a' db = search_photos d t u is_admin db) ∧
      ∃ l, search_photos d t u is_admin db = .ok l ∧
        (∀ p, p ∈ l ↔
          p ∈ db.photos ∧ p.description = d.getD "" ∧ photoHasTag db (t.getD "") p) ∧
        l.Sorted (fun a b => b.created_at ≤ a.created_at)) ∧
    (truthy d → ¬ truthy t →
      ∃ l, search_photos d t u is_admin db = .ok l ∧
        (∀ p, p ∈ l ↔ p ∈ db.photos ∧ p.description = d.getD "") ∧
        l.Sorted (fun a b => b.created_at ≤ a.created_at)) ∧
    (truthy t → ¬ truthy d →
      ∃ l, search_photos d t u is_admin db = .ok l ∧
        (∀ p, p ∈ l ↔ p ∈ db.photos ∧ photoHasTag db (t.getD "") p) ∧
        l.Sorted (fun a b => b.created_at ≤ a.created_at)) ∧
    (¬ truthy d → ¬ truthy t → truthy u →
      (¬ is_admin →
        search_photos d t u is_admin db = .error ⟨403, "Permission denied"⟩) ∧
      (is_admin →
        ∃ l, search_photos d t u is_admin db = .ok l ∧
          (∀ p, p ∈ l ↔ p ∈ db.photos ∧ photoOwnedBy db (u.getD "") p) ∧
          l.Sorted (fun a b => b.created_at ≤ a.created_at))) ∧
    (¬ truthy d → ¬ truthy t → ¬ truthy u →
      ∃ l, search_photos d t u is_admin db = .ok l ∧
        (∀ p, p ∈ l ↔ p ∈ db.photos) ∧
        l.Sorted (fun a b => b.created_at ≤ a.created_at)) := by
  refine ⟨fun hd ht => ⟨fun u' a' => ?_, ?_⟩, fun hd ht => ?_, fun ht hd => ?_,
    fun hd ht hu => ⟨fun ha => ?_, fun ha => ?_⟩, fun hd ht hu => ?_⟩
  · unfold search_photos
    rw [if_pos ⟨hd, ht⟩, if_pos ⟨hd, ht⟩]
  · have heq : search_photos d t u is_admin db =
        .ok (orderDesc (db.photos.filter fun p =>
          p.description == d.getD "" && photoHasTag db (t.getD "") p)) := by
      unfold search_photos
      rw [if_pos ⟨hd, ht⟩]
    refine ⟨_, heq, fun p => ?_, orderDesc_sorted _⟩
    rw [orderDesc_mem, List.mem_filter]
    simp [and_assoc]
  · have heq : search_photos d t u is_admin db =
        .ok (orderDesc (db.photos.filter fun p =>
          p.description == d.getD "")) := by
      unfold search_photos
      rw [if_neg (fun hc => ht hc.2), if_pos ⟨hd, ht⟩]
    refine ⟨_, heq, fun p => ?_, orderDesc_sorted _⟩
    rw [orderDesc_mem, List.mem_filter]
    simp
  · have heq : search_photos d t u is_admin db =
        .ok (orderDesc (db.photos.filter (photoHasTag db (t.getD "")))) := by
      unfold search_photos
      rw [if_neg (fun hc => hd hc.1), if_neg (fun hc => hd hc.1), if_pos ⟨ht, hd⟩]
    refine ⟨_, heq, fun p => ?_, orderDesc_sorted _⟩
    rw [orderDesc_mem, List.mem_filter]
  · unfold search_photos
    rw [if_neg (fun hc => hd hc.1), if_neg (fun hc => hd hc.1),
      if_neg (fun hc => ht hc.1), if_pos ⟨hu, hd, ht⟩, if_pos ha]
  · have heq : search_photos d t u is_admin db =
        .ok (orderDesc (db.photos.filter (photoOwnedBy db (u.getD "")))) := by
      unfold search_photos
      rw [if_neg (fun hc => hd hc.1), if_neg (fun hc => hd hc.1),
        if_neg (fun hc => ht hc.1), if_pos ⟨hu, hd, ht⟩, if_neg (fun hc => hc ha)]
    refine ⟨_, heq, fun p => ?_, orderDesc_sorted _⟩
    rw [orderDesc_mem, List.mem_filter]
  · have heq : search_photos d t u is_admin db = .ok (orderDesc db.photos) := by
      unfold search_photos
      rw [if_neg (fun hc => hd hc.1), if_neg (fun hc => hd hc.1),
        if_neg (fun hc => ht hc.1), if_neg (fun hc => hu hc.1)]
    refine ⟨_, heq, fun p => ?_, orderDesc_sorted _⟩
    rw [orderDesc_mem]

/-- Claim C4, witnessed with no filter supplied over a two-photo table. -/
theorem search_photos_spec_witness :
    ∃ l, search_photos none none none false
        ⟨[⟨1, 1, "a", 5, 0, []⟩, ⟨2, 1, "b", 9, 0, []⟩], [], [], []⟩ = .ok l ∧
      (∀ p, p ∈ l ↔
        p ∈ [(⟨1, 1, "a", 5, 0, []⟩ : Photo), ⟨2, 1, "b", 9, 0, []⟩]) ∧
      l.Sorted (fun a b => b.created_at ≤ a.created_at) :=
  (search_photos_spec none none none false
      ⟨[⟨1, 1, "a", 5, 0, []⟩, ⟨2, 1, "b", 9, 0, []⟩], [], [], []⟩).2.2.2.2
    (by decide) (by decide) (by decide)

/-! ### Image transformation (src/services/photos.py, lines 15-84)

`transform_image` builds the Cloudinary transformation chain from the
nested `TransformBodyModel`.  The translation below mirrors the source's
branch structure, including the sequence of overwriting assignments for
the effect name and the crop mode, and the source's resize condition,
which tests `body.resize.height` twice and never tests
`body.resize.width`. -/

/-- The `circle` group of `TransformBodyModel`. -/
structure TransformCircleModel where
  use_filter : Bool
  height : Nat
  width : Nat
deriving DecidableEq, Repr

/-- The `effect` group of `TransformBodyModel`. -/
structure TransformEffectModel where
  use_filter : Bool
  art_audrey : Bool
  art_zorro : Bool
  cartoonify : Bool
  blur : Bool
deriving DecidableEq, Repr

/-- The `resize` group of `TransformBodyModel`. -/
structure TransformResizeModel where
  use_filter : Bool
  crop : Bool
  fill : Bool
  height : Nat
  width : Nat
deriving DecidableEq, Repr

/-- The `text` group of `TransformBodyModel`. -/
structure TransformTextModel where
  use_filter : Bool
  font_size : Nat
  text : String
deriving DecidableEq, Repr

/-- The `rotate` group of `TransformBodyModel`. -/
structure TransformRotateModel where
  use_filter : Bool
  width : Nat
  degree : Int
deriving DecidableEq, Repr

/-- The request body of the transformation endpoint. -/
structure TransformBodyModel where
  circle : TransformCircleModel
  effect : TransformEffectModel
  resize : TransformResizeModel
  text : TransformTextModel
  rotate : TransformRotateModel
deriving DecidableEq, Repr

/-- One Cloudinary transformation directive (one dict appended to the
`transformation` list), keeping the parameters the source interpolates. -/
inductive Directive
  | circleThumb (height width : Nat)
  | radiusMax
  | effect (name : String)
  | resize (height width : Nat) (crop : String)
  | textOverlay (font_size : Nat) (text : String)
  | layerApply
  | scaleWidth (width : Nat)
  | angleVflip
  | angleDeg (degree : Int)
deriving DecidableEq, Repr

/-- The chain built by `transform_image`, group by group in the source
order circle, effect, resize, text, rotate (Python truthiness of an
integer is being non-zero, of a string being non-empty). -/
def buildTransformation (body : TransformBodyModel) : List Directive :=
  let t1 : List Directive :=
    if body.circle.use_filter ∧ body.circle.height ≠ 0 ∧ body.circle.width ≠ 0 then
      [.circleThumb body.circle.height body.circle.width, .radiusMax]
    else []
  let t2 : List Directive :=
    if body.effect.use_filter then
      let e0 : String := ""
      let e1 := if body.effect.art_audrey then "art:audrey" else e0
      let e2 := if body.effect.art_zorro then "art:zorro" else e1
      let e3 := if body.effect.blur then "blur:300" else e2
      let e4 := if body.effect.cartoonify then "cartoonify" else e3
      if e4 ≠ "" then [.effect e4] else []
    else []
  let t3 : List Directive :=
    if body.resize.use_filter ∧ body.resize.height ≠ 0 ∧ body.resize.height ≠ 0 then
      let c0 : String := ""
      let c1 := if body.resize.crop then "crop" else c0
      let c2 := if body.resize.fill then "fill" else c1
      if c2 ≠ "" then [.resize body.resize.height body.resize.width c2] else []
    else []
  let t4 : List Directive :=
    if body.text.use_filter ∧ body.text.font_size ≠ 0 ∧ body.text.text ≠ "" then
      [.textOverlay body.text.font_size body.text.text, .layerApply]
    else []
  let t5 : List Directive :=
    if body.rotate.use_filter ∧ body.rotate.width ≠ 0 ∧ body.rotate.degree ≠ 0 then
      [.scaleWidth body.rotate.width, .angleVflip, .angleDeg body.rotate.degree]
    else []
  t1 ++ t2 ++ t3 ++ t4 ++ t5

/-- Outcome of `transform_image`: photo not found (`None` returned), chain
delegated to Cloudinary with the new URL committed, or non-empty photo
returned unchanged with no upload and no commit. -/
inductive TransformResult
  | noPhoto
  | uploaded (chain : List Directive)
  | unchanged (p : Photo)
deriving DecidableEq, Repr

/-- `transform_image` after the photo lookup: with no photo the function
returns `None`; with an empty chain it returns the photo unchanged (no
Cloudinary call, no database write); otherwise it uploads the transformed
image and commits. -/
def transform_image (photoFound : Option Photo) (body : TransformBodyModel) :
    TransformResult :=
  match photoFound with
  | none => .noPhoto
  | some p =>
    let transformation := buildTransformation body
    if transformation ≠ [] then .uploaded transformation
    else .unchanged p

/-- Claim C5, failing input: a resize request whose `width` is 0 (unset)
still emits a resize directive - carrying width "0" - and delegates to the
image service, because the source tests `body.resize.height` twice instead
of testing `height` and `width`; the claim's "only when ... its required
parameters are set" fails for the resize group. -/
theorem transform_resize_width_unchecked :
    buildTransformation
      ⟨⟨false, 400, 400⟩, ⟨false, false, false, false, false⟩,
       ⟨true, false, true, 400, 0⟩, ⟨false, 70, ""⟩, ⟨false, 400, 45⟩⟩
      = [.resize 400 0 "fill"] ∧
    transform_image (some ⟨1, 1, "d", 0, 0, []⟩)
      ⟨⟨false, 400, 400⟩, ⟨false, false, false, false, false⟩,
       ⟨true, false, true, 400, 0⟩, ⟨false, 70, ""⟩, ⟨false, 400, 45⟩⟩
      = .uploaded [.resize 400 0 "fill"] := by
  constructor <;> rfl

end PhotoShare
